import Mathlib

/-!
Verification of the PDF-extraction backend (Velocity.ai) against its
natural-language specification.

Python strings are modelled as `List Char`; Python dicts holding JSON data
are modelled as association lists over `List Char` keys.  `json.loads` is
modelled by a fuel-based strict JSON parser returning `Option Json`
(`none` models a raised `json.JSONDecodeError`); numeric literals are
modelled over `ℚ` without fraction/exponent forms, which no input in this
development uses.  A raised Python exception is modelled as
`Except.error msg` where `msg` is the (abstracted) message text.
-/

/-- The backtick character, written by code point to keep source text plain. -/
def bq : Char := Char.ofNat 96

/-- The single-quote character. -/
def sqc : Char := Char.ofNat 39

/-- The double-quote character. -/
def dq : Char := Char.ofNat 34

/-- Opening curly brace. -/
def lbrace : Char := Char.ofNat 123

/-- Closing curly brace. -/
def rbrace : Char := Char.ofNat 125

/-- The backslash character. -/
def bslash : Char := Char.ofNat 92

/-- Whitespace as recognised by `str.strip` / the JSON grammar (ASCII subset;
Python also strips `\f`, `\v` and unicode spaces, which no modelled input
contains). -/
def isWsChar (c : Char) : Bool := c = ' ' || c = '\t' || c = '\n' || Char.ofNat 13 = c

/-- Model of Python `str.lstrip()`. -/
def stripL (l : List Char) : List Char := l.dropWhile isWsChar

/-- Model of Python `str.rstrip()`. -/
def stripR (l : List Char) : List Char := (l.reverse.dropWhile isWsChar).reverse

/-- Model of Python `str.strip()`. -/
def strip (l : List Char) : List Char := stripR (stripL l)

/-- `hasPref p l` models Python `l.startswith(p)`. -/
def hasPref : List Char → List Char → Bool
  | [], _ => true
  | _ :: _, [] => false
  | p :: ps, c :: cs => p = c && hasPref ps cs

/-- `hasSuf p l` models Python `l.endswith(p)`. -/
def hasSuf (p l : List Char) : Bool := hasPref p.reverse l.reverse

/-- A triple-backtick markdown fence. -/
def fence : List Char := [bq, bq, bq]

/-- The fence with a `json` language tag, as matched by `^```json`. -/
def fenceJson : List Char := fence ++ "json".toList

/-- JSON values as produced by `json.loads` (numbers restricted to `ℚ`). -/
inductive Json where
  | null : Json
  | bool : Bool → Json
  | num : ℚ → Json
  | str : List Char → Json
  | arr : List Json → Json
  | obj : List (List Char × Json) → Json

/-- Association-list lookup, modelling Python `d[k]` / `k in d` on dicts
(first matching key; dicts built by the code never hold duplicates). -/
def alookup (k : List Char) : List (List Char × Json) → Option Json
  | [] => none
  | (k', v) :: rest => if k' = k then some v else alookup k rest

/-- Model of Python dict assignment `d[k] = v`: overwrite in place if the
key exists, append at the end otherwise (insertion-order semantics). -/
def setKey : List (List Char × Json) → List Char → Json → List (List Char × Json)
  | [], k, v => [(k, v)]
  | (k', v') :: rest, k, v =>
      if k' = k then (k', v) :: rest else (k', v') :: setKey rest k v

/-- Python truthiness of a JSON value (`if data:`). -/
def pyTruthy : Json → Bool
  | .null => false
  | .bool b => b
  | .num q => !(q == 0)
  | .str s => !s.isEmpty
  | .arr l => !l.isEmpty
  | .obj l => !l.isEmpty

/-- Numeric coercion used by `total_conf += details.get("confidence", 0)`:
ints/floats add directly, booleans count as 0/1, anything else raises
`TypeError` (modelled by `none`). -/
def toNumQ : Json → Option ℚ
  | .num q => some q
  | .bool b => some (if b then 1 else 0)
  | _ => none

/-- Skip JSON whitespace. -/
def skipWs (cs : List Char) : List Char := cs.dropWhile isWsChar

/-- One escape character inside a JSON string (`\uXXXX` is not modelled;
no input in this development uses it). -/
def escChar (e : Char) : Option Char :=
  if e = dq then some dq
  else if e = bslash then some bslash
  else if e = '/' then some '/'
  else if e = 'n' then some '\n'
  else if e = 't' then some '\t'
  else if e = 'r' then some (Char.ofNat 13)
  else if e = 'b' then some (Char.ofNat 8)
  else if e = 'f' then some (Char.ofNat 12)
  else none

/-- Parse the body of a JSON string after the opening quote, returning the
decoded characters and the remaining input.  Raw control characters are
rejected, as in strict `json.loads`. -/
def parseStringBody : List Char → Option (List Char × List Char)
  | [] => none
  | c :: rest =>
      if c = dq then some ([], rest)
      else if c = bslash then
        match rest with
        | [] => none
        | e :: rest2 =>
            match escChar e with
            | some ec => (parseStringBody rest2).map (fun p => (ec :: p.1, p.2))
            | none => none
      else if c.toNat < 32 then none
      else (parseStringBody rest).map (fun p => (c :: p.1, p.2))

/-- Consume a run of decimal digits, accumulating their value. -/
def digitsToNat (acc : ℕ) : List Char → ℕ × List Char
  | [] => (acc, [])
  | c :: rest =>
      if c.isDigit then digitsToNat (acc * 10 + (c.toNat - 48)) rest
      else (acc, c :: rest)

/-- True when a list of characters begins with a decimal digit. -/
def headIsDigit : List Char → Bool
  | [] => false
  | d :: _ => d.isDigit

/-- Parse a JSON integer token (after an optional leading minus sign).
Fractions and exponents are outside the model and rejected. -/
def parseNumTok (neg : Bool) (cs : List Char) : Option (Json × List Char) :=
  match cs with
  | [] => none
  | c :: rest =>
      if c.isDigit then
        if c = '0' && headIsDigit rest then none
        else
          let p := digitsToNat (c.toNat - 48) rest
          match p.2 with
          | '.' :: _ => none
          | 'e' :: _ => none
          | 'E' :: _ => none
          | _ => some (.num (if neg then -(p.1 : ℚ) else (p.1 : ℚ)), p.2)
      else none

/-- Match a keyword tail (`ull`, `rue`, `alse`) and yield the value. -/
def kwTail (cs : List Char) (tail : List Char) (v : Json) : Option (Json × List Char) :=
  if hasPref tail cs then some (v, cs.drop tail.length) else none

/-- Parser state: a top-level value, object members, or array items. -/
inductive PMode where
  | val : PMode
  | objBody : List (List Char × Json) → Bool → PMode
  | arrBody : List Json → Bool → PMode

/-- Fuel-based strict JSON parser modelling the `json.loads` grammar, written
as one structurally recursive function over the fuel.  In `objBody`,
duplicate keys overwrite (last wins) while keeping the first occurrence
position, as `json.loads` does. -/
def parseGo : ℕ → PMode → List Char → Option (Json × List Char)
  | 0, _, _ => none
  | Nat.succ fuel, PMode.val, cs =>
      (match cs with
      | [] => none
      | c :: rest =>
          if c = lbrace then parseGo fuel (PMode.objBody [] true) (skipWs rest)
          else if c = '[' then parseGo fuel (PMode.arrBody [] true) (skipWs rest)
          else if c = dq then
            match parseStringBody rest with
            | some p => some (Json.str p.1, p.2)
            | none => none
          else if c = 'n' then kwTail rest "ull".toList Json.null
          else if c = 't' then kwTail rest "rue".toList (Json.bool true)
          else if c = 'f' then kwTail rest "alse".toList (Json.bool false)
          else if c = '-' then parseNumTok true rest
          else if c.isDigit then parseNumTok false (c :: rest)
          else none)
  | Nat.succ fuel, PMode.objBody acc first, cs =>
      (match cs with
      | [] => none
      | c :: rest =>
          if c = rbrace && first then some (Json.obj acc, rest)
          else if c = dq then
            match parseStringBody rest with
            | none => none
            | some kp =>
                match skipWs kp.2 with
                | ':' :: r2 =>
                    match parseGo fuel PMode.val (skipWs r2) with
                    | none => none
                    | some vp =>
                        match skipWs vp.2 with
                        | ',' :: r4 =>
                            parseGo fuel (PMode.objBody (setKey acc kp.1 vp.1) false) (skipWs r4)
                        | c2 :: r4 =>
                            if c2 = rbrace then some (Json.obj (setKey acc kp.1 vp.1), r4)
                            else none
                        | [] => none
                | _ => none
          else none)
  | Nat.succ fuel, PMode.arrBody acc first, cs =>
      (match cs with
      | [] => none
      | c :: rest =>
          if c = ']' && first then some (Json.arr acc.reverse, rest)
          else
            match parseGo fuel PMode.val (c :: rest) with
            | none => none
            | some vp =>
                match skipWs vp.2 with
                | ',' :: r2 => parseGo fuel (PMode.arrBody (vp.1 :: acc) false) (skipWs r2)
                | c2 :: r2 =>
                    if c2 = ']' then some (Json.arr (vp.1 :: acc).reverse, r2) else none
                | [] => none)

/-- Model of `json.loads`: parse one value, require only whitespace after it;
`none` models a raised `json.JSONDecodeError`. -/
def parseJson (cs : List Char) : Option Json :=
  match parseGo (cs.length + 2) PMode.val (skipWs cs) with
  | some p => if skipWs p.2 = [] then some p.1 else none
  | none => none

example : parseJson "1".toList = some (Json.num 1) := rfl
example : parseJson ([lbrace] ++ [dq] ++ "a".toList ++ [dq, ':', '1', rbrace])
    = some (Json.obj [("a".toList, Json.num 1)]) := rfl
example : parseJson "oops".toList = none := rfl
example : parseJson "[1, 2]".toList = some (Json.arr [Json.num 1, Json.num 2]) := rfl
example : parseJson "null".toList = some Json.null := rfl
example : parseJson "".toList = none := rfl

/-! ## Response sanitization

`main.py` (`LLMService.extract_with_mistral` / `extract_with_groq`, lines
317-320) strips markdown fences with three `re.sub` calls on the stripped
content: `^```json\s*`, then `^```\s*`, then `\s*```$`, and then calls
`json.loads`.  There is no literal normalization, quote conversion,
trailing-comma stripping or key-value fallback anywhere in the source. -/

/-- Drop a leading `tag` plus following whitespace, modelling
`re.sub(r'^TAG\s*', '', content)` for a literal TAG. -/
def stripFenceHead (tag : List Char) (l : List Char) : List Char :=
  if hasPref tag l then (l.drop tag.length).dropWhile isWsChar else l

/-- Drop a trailing triple-backtick fence plus the whitespace before it,
modelling `re.sub(r'\s*```$', '', content)` on input with no trailing
whitespace (the pipeline strips the content first). -/
def stripFenceTail (l : List Char) : List Char :=
  if hasSuf fence l then ((l.reverse.drop 3).dropWhile isWsChar).reverse else l

/-- The fence-stripping pipeline of `main.py` lines 317-320:
strip, remove a leading ````` ```json `````, remove a leading ````` ``` `````,
remove a trailing ````` ``` `````. -/
def sanitizeMain (content : List Char) : List Char :=
  stripFenceTail (stripFenceHead fence (stripFenceHead fenceJson (strip content)))

/-- The cleaning steps of `llm_service.py` `_parse_json_response`
(lines 184-194), modelled exactly as written in the source:
`content.startswith("json")` drops 7 characters, the following
`content.startswith("")` test is always true so 3 characters are always
dropped, and a trailing ````` ``` ````` is removed; then a final strip. -/
def svcClean (content : List Char) : List Char :=
  let c1 := strip content
  let c2 := if hasPref "json".toList c1 then c1.drop 7 else c1
  let c3 := c2.drop 3
  let c4 := if hasSuf fence c3 then c3.reverse.drop 3 |>.reverse else c3
  strip c4

/-- `llm_service.py` `_parse_json_response`: clean, then `json.loads`;
a `json.JSONDecodeError` is caught and `None` is returned (no raise). -/
def parseJsonResponseModel (content : List Char) : Option Json :=
  parseJson (svcClean content)

/-! ## Keys and fixed strings from the source -/

/-- Key `"_llm_model"`. -/
def llmKey : List Char := "_llm_model".toList

/-- Key `"_template"`. -/
def tmplKey : List Char := "_template".toList

/-- Key `"confidence"`. -/
def confKey : List Char := "confidence".toList

/-- Key `"value"`. -/
def valueKey : List Char := "value".toList

/-- Key `"metadata"`. -/
def mdKey : List Char := "metadata".toList

/-- Key `"portfolio_summary"`. -/
def psKey : List Char := "portfolio_summary".toList

/-- Key `"schedule_of_investments"`. -/
def soiKey : List Char := "schedule_of_investments".toList

/-- Key `"statement_of_operations"`. -/
def sooKey : List Char := "statement_of_operations".toList

/-- Key `"statement_of_cashflows"`. -/
def scfKey : List Char := "statement_of_cashflows".toList

/-- Key `"pcap_statement"`. -/
def pcapKey : List Char := "pcap_statement".toList

/-- Key `"portfolio_company_profile"`. -/
def pcpKey : List Char := "portfolio_company_profile".toList

/-- Key `"portfolio_company_financials"`. -/
def pcfKey : List Char := "portfolio_company_financials".toList

/-- Key `"footnotes"`. -/
def fnKey : List Char := "footnotes".toList

/-- The eight section keys of `template_1`-structured output, as declared by
`TEMPLATES["template_1"]["sheets"]` and the template-1 prompt schema in
`main.py`. -/
def template1SectionKeys : List (List Char) :=
  [psKey, soiKey, sooKey, scfKey, pcapKey, pcpKey, pcfKey, fnKey]

/-- Model name `"mistral-large-latest"`. -/
def mistralModel : List Char := "mistral-large-latest".toList

/-- Model name `"llama-3.3-70b-versatile"`. -/
def groqModel : List Char := "llama-3.3-70b-versatile".toList

/-- Template id `"template_1"`. -/
def template1Str : List Char := "template_1".toList

/-- Message of the `HTTPException(500, "All LLM providers failed")` raised
at the end of `LLMService.extract` in `main.py`. -/
def allFailMsg : List Char := "All LLM providers failed".toList

/-- Abstracted message of a raised `json.JSONDecodeError`. -/
def jsonDecodeMsg : List Char := "JSONDecodeError".toList

/-- Abstracted message of a raised `TypeError`. -/
def typeMsg : List Char := "TypeError".toList

/-- Abstracted message of a raised `AttributeError`. -/
def attrMsg : List Char := "AttributeError".toList

/-! ## Provider chain of `main.py` (`extract_with_mistral` / `extract_with_groq`)

Both functions have identical structure: build the prompt, call the
provider's chat endpoint, fence-strip and `json.loads` the content, set
`data["_llm_model"]` and `data["_template"]`, and return.  A raised provider
exception propagates immediately (`except Exception: raise`); only a
`json.JSONDecodeError` is retried, recursing with `retry + 1` while
`retry < self.max_retries` (so up to `max_retries + 1` parse attempts), then
re-raised.  The provider is modelled as a stub mapping the attempt index to
either a raised exception (`Except.error msg`) or a completion string. -/

/-- Set the two metadata keys `_llm_model` and `_template` on parsed data,
in the source's assignment order. -/
def setMeta (kvs : List (List Char × Json)) (name tid : List Char) :
    List (List Char × Json) :=
  setKey (setKey kvs llmKey (Json.str name)) tmplKey (Json.str tid)

/-- One attempt of the `main.py` chain: call the stub, sanitize, parse, and
attach metadata.  `Sum.inr ()` marks a `json.JSONDecodeError` (retryable);
`Sum.inl` is a final outcome.  Item assignment on a non-dict raises
`TypeError`, which `except Exception` re-raises without retry. -/
def attemptOnce (stub : ℕ → Except (List Char) (List Char)) (name tid : List Char)
    (retry : ℕ) : Sum (Except (List Char) Json) Unit :=
  match stub retry with
  | .error e => .inl (.error e)
  | .ok content =>
      match parseJson (sanitizeMain content) with
      | some (Json.obj kvs) => .inl (.ok (Json.obj (setMeta kvs name tid)))
      | some _ => .inl (.error typeMsg)
      | none => .inr ()

/-- The retry recursion of `extract_with_mistral`/`extract_with_groq`.
`fuel` is the number of retries still allowed (`max_retries - retry`); the
second component counts provider chat calls actually made. -/
def chainAux (stub : ℕ → Except (List Char) (List Char)) (name tid : List Char) :
    ℕ → ℕ → Except (List Char) Json × ℕ
  | fuel, retry =>
      match attemptOnce stub name tid retry with
      | Sum.inl res => (res, 1)
      | Sum.inr _ =>
          match fuel with
          | 0 => (Except.error jsonDecodeMsg, 1)
          | Nat.succ n =>
              let p := chainAux stub name tid n (retry + 1)
              (p.1, p.2 + 1)

/-- A full `extract_with_*` call starting at `retry = 0` with the given
retry ceiling (`self.max_retries`, which is 3 in the source). -/
def runChain (stub : ℕ → Except (List Char) (List Char)) (name tid : List Char)
    (maxRetries : ℕ) : Except (List Char) Json × ℕ :=
  chainAux stub name tid maxRetries 0

example : runChain (fun _ => .ok "oops".toList) mistralModel template1Str 3
    = (Except.error jsonDecodeMsg, 4) := rfl
example : runChain (fun _ => .error "boom".toList) mistralModel template1Str 3
    = (Except.error "boom".toList, 1) := rfl

/-! ## Provider orchestration: `LLMService.extract` in `main.py`

`extract` tries Mistral when its client is configured, catching any
exception; then tries Groq when configured, catching any exception; and
finally raises `HTTPException(500, "All LLM providers failed")`.  A trace of
which provider's chat endpoint was called, in order, is kept alongside. -/

/-- Provider identity for the call trace. -/
inductive Prov where
  | mistral : Prov
  | groq : Prov
deriving DecidableEq

/-- The Groq fallback stage of `extract` (runs when Mistral is absent or its
chain raised).  `tr` is the trace accumulated so far. -/
def extractGroqStage (gConf : Bool) (gStub : ℕ → Except (List Char) (List Char))
    (tid : List Char) (tr : List Prov) : Except (List Char) Json × List Prov :=
  if gConf then
    match runChain gStub groqModel tid 3 with
    | (.ok d, n) => (.ok d, tr ++ List.replicate n Prov.groq)
    | (.error _, n) => (.error allFailMsg, tr ++ List.replicate n Prov.groq)
  else (.error allFailMsg, tr)

/-- `LLMService.extract` from `main.py` (lines 368-383), with provider chat
calls modelled by stubs and a call trace; `max_retries` is 3 as in the
source.  Every exception from the Mistral chain falls through to Groq. -/
def extractMain (mConf gConf : Bool)
    (mStub gStub : ℕ → Except (List Char) (List Char)) (tid : List Char) :
    Except (List Char) Json × List Prov :=
  if mConf then
    match runChain mStub mistralModel tid 3 with
    | (.ok d, n) => (.ok d, List.replicate n Prov.mistral)
    | (.error _, n) => extractGroqStage gConf gStub tid (List.replicate n Prov.mistral)
  else extractGroqStage gConf gStub tid []

/-- Whether an extraction outcome is a parsed JSON object. -/
def isOkObj : Except (List Char) Json → Bool
  | .ok (Json.obj _) => true
  | _ => false

/-- Key lookup inside a successful object outcome. -/
def okObjLookup (r : Except (List Char) Json) (k : List Char) : Option Json :=
  match r with
  | .ok (Json.obj kvs) => alookup k kvs
  | _ => none

/-! ## Provider adapter of `llm_service.py` (`_extract_with_mistral`)

`for attempt in range(max_retries):` call the provider (exceptions caught
and looped), `_parse_json_response` the content, and return the data only if
it is truthy; otherwise continue.  After the loop, return `None`.  The
second component counts provider chat calls made. -/

/-- The attempt loop of `_extract_with_mistral` / `_extract_with_groq`:
`n` attempts remain, `attempt` is the current index, `calls` counts calls. -/
def svcLoop (provider : ℕ → Except (List Char) (List Char)) :
    ℕ → ℕ → ℕ → Option Json × ℕ
  | 0, _, calls => (none, calls)
  | Nat.succ n, attempt, calls =>
      match provider attempt with
      | .error _ => svcLoop provider n (attempt + 1) (calls + 1)
      | .ok content =>
          match parseJsonResponseModel content with
          | some d =>
              if pyTruthy d then (some d, calls + 1)
              else svcLoop provider n (attempt + 1) (calls + 1)
          | none => svcLoop provider n (attempt + 1) (calls + 1)

/-- One `_extract_with_mistral(prompt, max_retries)` call (client assumed
configured; range-based loop starting at attempt 0). -/
def extractSvcMistral (provider : ℕ → Except (List Char) (List Char))
    (maxRetries : ℕ) : Option Json × ℕ :=
  svcLoop provider maxRetries 0 0

example : extractSvcMistral (fun _ => .error "boom".toList) 3 = (none, 3) := rfl

/-! ## `_validate_and_clean` of `llm_service.py` (lines 235-251)

For each field of the template schema, a missing key in the extracted data
is set to `None` (JSON `null`); existing keys are untouched. -/

/-- `_validate_and_clean`, folding the schema fields over the data. -/
def validateAndClean (data : List (List Char × Json)) :
    List (List Char × Json) → List (List Char × Json)
  | [] => data
  | (field, _) :: rest =>
      validateAndClean
        (if (alookup field data).isSome then data else data ++ [(field, Json.null)]) rest

/-! ## Field statistics of `process_file` for `template_1` (`main.py` 724-765)

Four mapping sections are walked field by field: a field whose value is a
dict containing `"confidence"` counts once and contributes its confidence
(a non-numeric confidence raises `TypeError` on `+=`).  Three list sections
add `len(data[section])` to the field count and contribute the confidences
of dict-typed fields of dict-typed items.  `len`/iteration on non-sized or
non-iterable values raises, modelled as `Except.error`. -/

/-- Sequential accumulation of two counting stages (first error wins, as the
loops run in source order). -/
def exAdd (x y : Except (List Char) (ℕ × ℚ)) : Except (List Char) (ℕ × ℚ) :=
  match x with
  | .error e => .error e
  | .ok a =>
      match y with
      | .error e => .error e
      | .ok b => .ok (a.1 + b.1, a.2 + b.2)

/-- Contribution of one mapping-section member: a dict value containing
`"confidence"` counts one field and its numeric confidence (`TypeError` on a
non-numeric one); any other value is skipped. -/
def fieldContrib : Json → Except (List Char) (ℕ × ℚ)
  | .obj det =>
      (match alookup confKey det with
      | some cv =>
          match toNumQ cv with
          | some q => .ok (1, q)
          | none => .error typeMsg
      | none => .ok (0, 0))
  | _ => .ok (0, 0)

/-- Count fields and sum confidences for the members of one mapping section,
in loop order. -/
def countFieldsDict : List (List Char × Json) → Except (List Char) (ℕ × ℚ)
  | [] => .ok (0, 0)
  | (_, v) :: rest => exAdd (fieldContrib v) (countFieldsDict rest)

/-- `for field, details in data[section].items(): ...` over one mapping
section; `.items()` on a non-dict raises `AttributeError`. -/
def countDictSection (data : List (List Char × Json)) (sec : List Char) :
    Except (List Char) (ℕ × ℚ) :=
  match alookup sec data with
  | none => .ok (0, 0)
  | some (.obj fields) => countFieldsDict fields
  | some _ => .error attrMsg

/-- Confidence contributions of one list item's fields (item must be a dict
to contribute; other items are skipped). -/
def confSumKVs : List (List Char × Json) → Except (List Char) ℚ
  | [] => .ok 0
  | (_, d) :: rest =>
      match d with
      | .obj det =>
          match alookup confKey det with
          | some cv =>
              match toNumQ cv with
              | some q =>
                  match confSumKVs rest with
                  | .error e => .error e
                  | .ok c => .ok (q + c)
              | none => .error typeMsg
          | none => confSumKVs rest
      | _ => confSumKVs rest

/-- Confidence contributions over the items of a list section. -/
def confSumItems : List Json → Except (List Char) ℚ
  | [] => .ok 0
  | j :: rest =>
      match (match j with | Json.obj kvs => confSumKVs kvs | _ => Except.ok 0) with
      | .error e => .error e
      | .ok a =>
          match confSumItems rest with
          | .error e => .error e
          | .ok b => .ok (a + b)

/-- One list section: `total_fields += len(data[section])` then iterate.
`len` of a dict counts its keys (iterating them adds no confidence), `len`
of a string counts characters; `len` of anything unsized raises. -/
def countListSection (data : List (List Char × Json)) (sec : List Char) :
    Except (List Char) (ℕ × ℚ) :=
  match alookup sec data with
  | none => .ok (0, 0)
  | some (.arr items) =>
      match confSumItems items with
      | .error e => .error e
      | .ok c => .ok (items.length, c)
  | some (.obj kvs) => .ok (kvs.length, 0)
  | some (.str s) => .ok (s.length, 0)
  | some _ => .error typeMsg

/-- The `template_1` branch of the stats computation in `process_file`:
four mapping sections in order, then the three list sections. -/
def statsTemplate1 (data : List (List Char × Json)) : Except (List Char) (ℕ × ℚ) :=
  exAdd (exAdd (exAdd (exAdd (exAdd (exAdd
    (countDictSection data psKey)
    (countDictSection data sooKey))
    (countDictSection data scfKey))
    (countDictSection data pcapKey))
    (countListSection data soiKey))
    (countListSection data pcpKey))
    (countListSection data pcfKey)

/-- Round half to even, the documented behaviour of Python `round`. -/
def rhE (x : ℚ) : ℤ :=
  if x - ⌊x⌋ < 1 / 2 then ⌊x⌋
  else if 1 / 2 < x - ⌊x⌋ then ⌊x⌋ + 1
  else if 2 ∣ ⌊x⌋ then ⌊x⌋ else ⌊x⌋ + 1

/-- Python `round(x, 1)` modelled over `ℚ`. -/
def pyRound1 (x : ℚ) : ℚ := (rhE (10 * x) : ℚ) / 10

/-- `avg_conf = round(total_conf / total_fields, 1) if total_fields else 0`
(`main.py` line 765). -/
def avgConf (tf : ℕ) (tc : ℚ) : ℚ :=
  if tf = 0 then 0 else pyRound1 (tc / (tf : ℚ))

example : avgConf 1 95 = 95 := by
  unfold avgConf pyRound1 rhE
  norm_num

/-- Key `"total_fields_extracted"`. -/
def tfeKey : List Char := "total_fields_extracted".toList

/-- Key `"average_confidence"`. -/
def acKey : List Char := "average_confidence".toList

/-- Key `"template_used"`. -/
def tuKey : List Char := "template_used".toList

/-- The three assignments into `data["metadata"]`. -/
def mdSet (m : List (List Char × Json)) (tf : ℕ) (avg : ℚ) :
    List (List Char × Json) :=
  setKey (setKey (setKey m tfeKey (Json.num (tf : ℚ))) acKey (Json.num avg))
    tuKey (Json.str template1Str)

/-- The success-path data transformation of `process_file` for `template_1`:
compute stats, then ensure `data["metadata"]` exists and set the three
metadata keys.  Indexing into a non-dict `metadata` value raises
`TypeError`; a raised stats error propagates (both are caught further out by
`process_file`'s `except`). -/
def processFileSuccess (data : List (List Char × Json)) :
    Except (List Char) (List (List Char × Json)) :=
  match statsTemplate1 data with
  | .error e => .error e
  | .ok p =>
      let avg := avgConf p.1 p.2
      match alookup mdKey data with
      | none => .ok (setKey data mdKey (Json.obj (mdSet [] p.1 avg)))
      | some (.obj m) => .ok (setKey data mdKey (Json.obj (mdSet m p.1 avg)))
      | some _ => .error typeMsg

/-! ## `extract_pdf_text` of `main.py` (lines 37-69)

The two PDF libraries are external collaborators, modelled by stubs giving
either a raised exception or the per-page `extract_text() or ""` results.
Inside one `try`: read pages via pdfplumber, appending a page marker and the
text for each page whose stripped text is non-empty; if the accumulated
stripped text is shorter than 150 characters, switch `method` to
`"PyPDF2"` and append that reader's pages to the same accumulator (the
page count is overwritten).  The success return always carries
`"success": True`; any exception yields the fixed failure record. -/

/-- Stub for the two PDF reader libraries. -/
structure PdfStub where
  plumber : Except (List Char) (List (List Char))
  pypdf : Except (List Char) (List (List Char))

/-- The record returned by `extract_pdf_text` (the failure record carries no
`char_count` in the source; it is 0 here). -/
structure PdfRecord where
  text : List Char
  pageCount : ℕ
  method : List Char
  charCount : ℕ
  success : Bool
  errMsg : Option (List Char)

/-- The page marker `\n\n═══ PAGE i ═══\n` prepended to each page's text. -/
def pageMarker (i : ℕ) : List Char :=
  ['\n', '\n', Char.ofNat 0x2550, Char.ofNat 0x2550, Char.ofNat 0x2550, ' ']
    ++ "PAGE ".toList ++ (Nat.toDigits 10 i)
    ++ [' ', Char.ofNat 0x2550, Char.ofNat 0x2550, Char.ofNat 0x2550, '\n']

/-- Accumulate `marker + page_text` for pages with non-empty stripped text,
numbering pages from `i`. -/
def buildPages (i : ℕ) : List (List Char) → List Char
  | [] => []
  | p :: rest =>
      (if strip p ≠ [] then pageMarker i ++ p else []) ++ buildPages (i + 1) rest

/-- The failure record of `extract_pdf_text`. -/
def pdfFailRecord (e : List Char) : PdfRecord :=
  ⟨[], 0, "failed".toList, 0, false, some e⟩

/-- `extract_pdf_text` from `main.py`. -/
def extractPdfText (stub : PdfStub) : PdfRecord :=
  match stub.plumber with
  | .error e => pdfFailRecord e
  | .ok pages =>
      let t1 := buildPages 1 pages
      if (strip t1).length < 150 then
        match stub.pypdf with
        | .error e => pdfFailRecord e
        | .ok pages2 =>
            let t := t1 ++ buildPages 1 pages2
            ⟨strip t, pages2.length, "PyPDF2".toList, t.length, true, none⟩
      else ⟨strip t1, pages.length, "pdfplumber".toList, t1.length, true, none⟩

/-! ## `process_file` and the extraction endpoint (`main.py` 698-817)

`process_file` catches every exception and always returns a result record
with `"status"` either `"success"` or `"error"`; an error record carries an
`"error"` message.  The endpoint maps `process_file` over the uploaded
files (via `asyncio.gather` over independent tasks) and builds one response
entry per file.  The LLM call is modelled by a stub holding the outcome of
`llm_service.extract` for this document's text. -/

/-- Document stub: filename, PDF library behaviour, and the outcome of the
`llm_service.extract` call on the extracted text. -/
structure DocStub where
  filename : List Char
  pdf : PdfStub
  llm : Except (List Char) (List (List Char × Json))

/-- One per-document entry of the endpoint response. -/
structure FileResult where
  filename : List Char
  status : List Char
  error : Option (List Char)
  data : List (List Char × Json)

/-- Status string `"success"`. -/
def successStr : List Char := "success".toList

/-- Status string `"error"`. -/
def errorStr : List Char := "error".toList

/-- Default error message `"PDF extraction failed"` used by
`extraction.get("error", "PDF extraction failed")`. -/
def pdfFailMsg : List Char := "PDF extraction failed".toList

/-- `process_file` from `main.py` (template `template_1`). -/
def processFile (d : DocStub) : FileResult :=
  let ex := extractPdfText d.pdf
  if ex.success = false then
    ⟨d.filename, errorStr, some (ex.errMsg.getD pdfFailMsg), []⟩
  else
    match d.llm with
    | .error e => ⟨d.filename, errorStr, some e, []⟩
    | .ok data =>
        match processFileSuccess data with
        | .error e => ⟨d.filename, errorStr, some e, []⟩
        | .ok cleaned => ⟨d.filename, successStr, none, cleaned⟩

/-- The per-document result list built by the `/api/extract` endpoint:
one entry per uploaded file, each produced independently by `process_file`. -/
def extractEndpointResults (docs : List DocStub) : List FileResult :=
  docs.map processFile

/-! ## `_merge_fund_data` of `excel_generator.py` (lines 615-630)

For each file's extracted dict, in order: a key not yet merged is inserted;
for a key already present, a list-typed incoming value is appended to the
existing value via `merged[key].extend(value)` (an `AttributeError` if the
existing value has no `extend`), and any other incoming value is ignored. -/

/-- Merge one `(key, value)` pair into the accumulated dict. -/
def mergeOne (merged : List (List Char × Json)) (k : List Char) (v : Json) :
    Except (List Char) (List (List Char × Json)) :=
  match alookup k merged with
  | none => .ok (merged ++ [(k, v)])
  | some existing =>
      match v with
      | .arr l2 =>
          match existing with
          | .arr l1 => .ok (setKey merged k (Json.arr (l1 ++ l2)))
          | _ => .error attrMsg
      | _ => .ok merged

/-- Merge the items of one file's extracted dict, in order. -/
def mergeItems (merged : List (List Char × Json)) :
    List (List Char × Json) → Except (List Char) (List (List Char × Json))
  | [] => .ok merged
  | (k, v) :: rest =>
      match mergeOne merged k v with
      | .error e => .error e
      | .ok m2 => mergeItems m2 rest

/-- Fold over the files, threading the accumulated merged dict. -/
def mergeFiles (acc : List (List Char × Json)) :
    List (List (List Char × Json)) → Except (List Char) (List (List Char × Json))
  | [] => .ok acc
  | d :: rest =>
      match mergeItems acc d with
      | .error e => .error e
      | .ok acc2 => mergeFiles acc2 rest

/-- `_merge_fund_data` over the list of per-file extracted dicts. -/
def mergeFundData (ds : List (List (List Char × Json))) :
    Except (List Char) (List (List Char × Json)) :=
  mergeFiles [] ds

/-! ## Association-list and string helper lemmas -/

theorem alookup_setKey_self (l : List (List Char × Json)) (k : List Char) (v : Json) :
    alookup k (setKey l k v) = some v := by
  induction l with
  | nil => simp [setKey, alookup]
  | cons kv rest ih =>
      obtain ⟨k0, v0⟩ := kv
      by_cases h0 : k0 = k
      · simp [setKey, h0, alookup]
      · simp [setKey, h0, alookup, ih]

theorem alookup_setKey_other {k k' : List Char} (l : List (List Char × Json)) (v : Json)
    (h : k' ≠ k) : alookup k' (setKey l k v) = alookup k' l := by
  have hne : k ≠ k' := fun hc => h hc.symm
  induction l with
  | nil =>
      simp only [setKey, alookup]
      rw [if_neg hne]
  | cons kv rest ih =>
      obtain ⟨k0, v0⟩ := kv
      by_cases h0 : k0 = k
      · subst h0
        simp only [setKey, if_pos rfl, alookup]
        rw [if_neg hne, if_neg hne]
      · simp only [setKey, if_neg h0, alookup]
        by_cases h1 : k0 = k'
        · rw [if_pos h1, if_pos h1]
        · rw [if_neg h1, if_neg h1, ih]

theorem alookup_append (k : List Char) (l1 l2 : List (List Char × Json)) :
    alookup k (l1 ++ l2) =
      (match alookup k l1 with
       | some v => some v
       | none => alookup k l2) := by
  induction l1 with
  | nil => simp [alookup]
  | cons kv rest ih =>
      obtain ⟨k0, v0⟩ := kv
      by_cases h0 : k0 = k
      · simp [alookup, h0]
      · simp [alookup, h0, ih]

theorem stripR_eq_rdropWhile (l : List Char) : stripR l = List.rdropWhile isWsChar l := rfl

theorem stripR_stripR (l : List Char) : stripR (stripR l) = stripR l := by
  rw [stripR_eq_rdropWhile, stripR_eq_rdropWhile]
  exact List.rdropWhile_idempotent _ _

theorem stripL_head_not_ws {a : Char} {t : List Char} (h : stripL (a :: t) = a :: t) :
    isWsChar a = false := by
  have := List.dropWhile_eq_self_iff.mp h (by simp)
  simpa using this

theorem stripL_stripR {l : List Char} (h : stripL l = l) : stripL (stripR l) = stripR l := by
  cases l with
  | nil => rfl
  | cons a t =>
      have ha : isWsChar a = false := stripL_head_not_ws h
      cases hsr : stripR (a :: t) with
      | nil => rfl
      | cons b r =>
          have hpre : stripR (a :: t) <+: a :: t := by
            rw [stripR_eq_rdropWhile]
            exact List.rdropWhile_prefix _ _
          rw [hsr] at hpre
          obtain ⟨s, hs⟩ := hpre
          rw [List.cons_append] at hs
          have hb : b = a := ((List.cons.injEq _ _ _ _).mp hs).1
          subst hb
          unfold stripL
          rw [List.dropWhile_cons, if_neg (by simp [ha])]

theorem stripL_stripL (l : List Char) : stripL (stripL l) = stripL l :=
  List.dropWhile_idempotent _ _

theorem strip_strip (l : List Char) : strip (strip l) = strip l := by
  unfold strip
  rw [stripL_stripR (stripL_stripL l), stripR_stripR]

theorem hasPref_append (p q l : List Char) (h : hasPref (p ++ q) l = true) :
    hasPref p l = true := by
  induction p generalizing l with
  | nil => rfl
  | cons c ps ih =>
      cases l with
      | nil => simp [hasPref] at h
      | cons d ds =>
          simp only [List.cons_append, hasPref, Bool.and_eq_true] at h ⊢
          exact ⟨h.1, ih ds h.2⟩

theorem sanitizeMain_nofence {s : List Char}
    (hp : hasPref fence (strip s) = false) (hs : hasSuf fence (strip s) = false) :
    sanitizeMain s = strip s := by
  have hpj : hasPref fenceJson (strip s) = false := by
    by_contra hcon
    rw [Bool.not_eq_false] at hcon
    rw [hasPref_append fence ("json".toList) (strip s) hcon] at hp
    exact Bool.noConfusion hp
  simp [sanitizeMain, stripFenceHead, stripFenceTail, hpj, hp, hs]

theorem chainAux_parse_fail {stub : ℕ → Except (List Char) (List Char)}
    {name tid : List Char} (h : ∀ r, attemptOnce stub name tid r = Sum.inr ()) :
    ∀ fuel retry, chainAux stub name tid fuel retry = (Except.error jsonDecodeMsg, fuel + 1) := by
  intro fuel
  induction fuel with
  | zero => intro retry; rw [chainAux, h retry]
  | succ n ih =>
      intro retry
      rw [chainAux, h retry]
      simp only [ih (retry + 1)]

theorem svcLoop_all_fail {provider : ℕ → Except (List Char) (List Char)}
    (h : ∀ n c, provider n ≠ Except.ok c) :
    ∀ n a calls, svcLoop provider n a calls = (none, calls + n) := by
  intro n
  induction n with
  | zero => intro a calls; simp [svcLoop]
  | succ m ih =>
      intro a calls
      cases hp : provider a with
      | ok c => exact absurd hp (h a c)
      | error e =>
          have harith : calls + 1 + m = calls + (m + 1) := by omega
          rw [svcLoop, hp, ih (a + 1) (calls + 1), harith]

theorem mergeOne_alookup_other {merged : List (List Char × Json)} {k1 : List Char} {v1 : Json}
    {m2 : List (List Char × Json)} {k : List Char} (hk : k ≠ k1)
    (hok : mergeOne merged k1 v1 = Except.ok m2) :
    alookup k m2 = alookup k merged := by
  unfold mergeOne at hok
  cases h1 : alookup k1 merged with
  | none =>
      rw [h1] at hok
      injection hok with hm
      subst hm
      rw [alookup_append]
      have hne : k1 ≠ k := fun hc => hk hc.symm
      cases h2 : alookup k merged with
      | some v => rfl
      | none => simp [alookup, hne]
  | some existing =>
      rw [h1] at hok
      cases v1 with
      | arr l2 =>
          cases existing with
          | arr l1 =>
              injection hok with hm
              subst hm
              exact alookup_setKey_other _ _ hk
          | null => exact Except.noConfusion hok
          | bool b => exact Except.noConfusion hok
          | num q => exact Except.noConfusion hok
          | str s => exact Except.noConfusion hok
          | obj o => exact Except.noConfusion hok
      | null => injection hok with hm; subst hm; rfl
      | bool b => injection hok with hm; subst hm; rfl
      | num q => injection hok with hm; subst hm; rfl
      | str s => injection hok with hm; subst hm; rfl
      | obj o => injection hok with hm; subst hm; rfl

theorem mergeItems_alookup_of_not_mem {k : List Char} :
    ∀ (items : List (List Char × Json)) (merged m2 : List (List Char × Json)),
      k ∉ items.map Prod.fst → mergeItems merged items = Except.ok m2 →
      alookup k m2 = alookup k merged := by
  intro items
  induction items with
  | nil =>
      intro merged m2 _ hok
      injection hok with hm
      subst hm
      rfl
  | cons kv rest ih =>
      intro merged m2 hmem hok
      obtain ⟨k1, v1⟩ := kv
      have hk : k ≠ k1 := by
        intro hc
        subst hc
        exact hmem (by rw [List.map_cons]; exact List.mem_cons_self _ _)
      have hmem2 : k ∉ rest.map Prod.fst := by
        intro hc
        exact hmem (by rw [List.map_cons]; exact List.mem_cons_of_mem _ hc)
      simp only [mergeItems] at hok
      cases hmo : mergeOne merged k1 v1 with
      | error e => rw [hmo] at hok; exact Except.noConfusion hok
      | ok mm =>
          rw [hmo] at hok
          rw [ih mm m2 hmem2 hok, mergeOne_alookup_other hk hmo]

theorem mergeItems_no_overwrite {k : List Char} {v w : Json} :
    ∀ (items merged m2 : List (List Char × Json)),
      (items.map Prod.fst).Nodup → mergeItems merged items = Except.ok m2 →
      alookup k merged = some v → alookup k items = some w →
      (∀ l2, w ≠ Json.arr l2) → alookup k m2 = some v := by
  intro items
  induction items with
  | nil => intro merged m2 _ _ _ hw _; exact absurd hw (by simp [alookup])
  | cons kv rest ih =>
      intro merged m2 hnd hok hv hw hnl
      obtain ⟨k1, v1⟩ := kv
      simp only [mergeItems] at hok
      rw [List.map_cons, List.nodup_cons] at hnd
      by_cases hk1 : k1 = k
      · subst hk1
        have hw1 : v1 = w := by
          rw [alookup, if_pos rfl] at hw
          exact Option.some.inj hw
        subst hw1
        have hmo : mergeOne merged k1 v1 = Except.ok merged := by
          unfold mergeOne
          rw [hv]
          cases v1 with
          | arr l2 => exact absurd rfl (hnl l2)
          | null => rfl
          | bool b => rfl
          | num q => rfl
          | str s => rfl
          | obj o => rfl
        rw [hmo] at hok
        rw [mergeItems_alookup_of_not_mem rest merged m2 hnd.1 hok]
        exact hv
      · have hk : k ≠ k1 := fun hc => hk1 hc.symm
        have hw2 : alookup k rest = some w := by
          rw [alookup, if_neg hk1] at hw
          exact hw
        cases hmo : mergeOne merged k1 v1 with
        | error e => rw [hmo] at hok; exact Except.noConfusion hok
        | ok mm =>
            rw [hmo] at hok
            have hv2 : alookup k mm = some v := by
              rw [mergeOne_alookup_other hk hmo]
              exact hv
            exact ih mm m2 hnd.2 hok hv2 hw2 hnl

theorem mergeItems_list_append {k : List Char} {l1 l2 : List Json} :
    ∀ (items merged m2 : List (List Char × Json)),
      (items.map Prod.fst).Nodup → mergeItems merged items = Except.ok m2 →
      alookup k merged = some (Json.arr l1) → alookup k items = some (Json.arr l2) →
      alookup k m2 = some (Json.arr (l1 ++ l2)) := by
  intro items
  induction items with
  | nil => intro merged m2 _ _ _ hw; exact absurd hw (by simp [alookup])
  | cons kv rest ih =>
      intro merged m2 hnd hok hv hw
      obtain ⟨k1, v1⟩ := kv
      simp only [mergeItems] at hok
      rw [List.map_cons, List.nodup_cons] at hnd
      by_cases hk1 : k1 = k
      · subst hk1
        have hw1 : v1 = Json.arr l2 := by
          rw [alookup, if_pos rfl] at hw
          exact Option.some.inj hw
        subst hw1
        have hmo : mergeOne merged k1 (Json.arr l2)
            = Except.ok (setKey merged k1 (Json.arr (l1 ++ l2))) := by
          unfold mergeOne
          rw [hv]
        rw [hmo] at hok
        rw [mergeItems_alookup_of_not_mem rest _ m2 hnd.1 hok]
        exact alookup_setKey_self _ _ _
      · have hk : k ≠ k1 := fun hc => hk1 hc.symm
        have hw2 : alookup k rest = some (Json.arr l2) := by
          rw [alookup, if_neg hk1] at hw
          exact hw
        cases hmo : mergeOne merged k1 v1 with
        | error e => rw [hmo] at hok; exact Except.noConfusion hok
        | ok mm =>
            rw [hmo] at hok
            have hv2 : alookup k mm = some (Json.arr l1) := by
              rw [mergeOne_alookup_other hk hmo]
              exact hv
            exact ih mm m2 hnd.2 hok hv2 hw2

theorem validateAndClean_mono {k : List Char} :
    ∀ (schema data : List (List Char × Json)),
      (alookup k data).isSome → (alookup k (validateAndClean data schema)).isSome := by
  intro schema
  induction schema with
  | nil => intro data h; exact h
  | cons fv rest ih =>
      intro data h
      obtain ⟨field, v⟩ := fv
      simp only [validateAndClean]
      by_cases hf : (alookup field data).isSome
      · rw [if_pos hf]
        exact ih data h
      · rw [if_neg hf]
        apply ih
        rw [alookup_append]
        cases h2 : alookup k data with
        | some w => simp
        | none => rw [h2] at h; exact absurd h (by simp)

theorem alookup_append_singleton_self (data : List (List Char × Json)) (k : List Char)
    (v : Json) : (alookup k (data ++ [(k, v)])).isSome := by
  rw [alookup_append]
  cases h2 : alookup k data with
  | some w => simp
  | none => simp [alookup]

/-! ## Bounds machinery for the confidence metric -/

/-- A member value has a reported confidence inside `[0, 100]` whenever that
confidence is a plain number (the property the C5 bound needs). -/
def confEntryOK : Json → Bool
  | .obj det =>
      (match alookup confKey det with
      | some (.num q) => decide (0 ≤ q ∧ q ≤ 100)
      | _ => true)
  | _ => true

/-- All reported confidences of one mapping section lie inside `[0, 100]`. -/
def dictSectionBounded (data : List (List Char × Json)) (sec : List Char) : Bool :=
  match alookup sec data with
  | some (.obj fields) => fields.all (fun kv => confEntryOK kv.2)
  | _ => true

/-- A list section is absent or an empty list. -/
def listSectionEmpty (data : List (List Char × Json)) (sec : List Char) : Bool :=
  match alookup sec data with
  | none => true
  | some (.arr []) => true
  | _ => false

/-- Counting outcomes whose confidence total is bounded by `100` per field. -/
def BndPair (r : Except (List Char) (ℕ × ℚ)) : Prop :=
  ∀ n c, r = Except.ok (n, c) → 0 ≤ c ∧ c ≤ 100 * (n : ℚ)

theorem bnd_exAdd {x y : Except (List Char) (ℕ × ℚ)} (hx : BndPair x) (hy : BndPair y) :
    BndPair (exAdd x y) := by
  intro n c h
  unfold exAdd at h
  cases hx2 : x with
  | error e => rw [hx2] at h; exact Except.noConfusion h
  | ok a =>
      rw [hx2] at h
      cases hy2 : y with
      | error e => rw [hy2] at h; exact Except.noConfusion h
      | ok b =>
          rw [hy2] at h
          injection h with hpair
          injection hpair with h1 h2
          subst h1
          subst h2
          obtain ⟨ha1, ha2⟩ := hx a.1 a.2 (by rw [hx2])
          obtain ⟨hb1, hb2⟩ := hy b.1 b.2 (by rw [hy2])
          constructor
          · linarith
          · push_cast
            linarith

theorem fieldContrib_bnd {v : Json} (h : confEntryOK v = true) : BndPair (fieldContrib v) := by
  intro n c hfc
  cases v with
  | obj det =>
      simp only [fieldContrib] at hfc
      simp only [confEntryOK] at h
      cases hcv : alookup confKey det with
      | none =>
          rw [hcv] at hfc
          injection hfc with hpair
          injection hpair with h1 h2
          subst h1
          subst h2
          norm_num
      | some cv =>
          rw [hcv] at hfc
          rw [hcv] at h
          cases cv with
          | num q =>
              simp only [toNumQ] at hfc
              injection hfc with hpair
              injection hpair with h1 h2
              subst h1
              subst h2
              obtain ⟨hq0, hq1⟩ := of_decide_eq_true h
              constructor
              · exact hq0
              · push_cast
                linarith
          | bool b =>
              simp only [toNumQ] at hfc
              injection hfc with hpair
              injection hpair with h1 h2
              subst h1
              subst h2
              cases b <;> norm_num
          | null => simp [toNumQ] at hfc
          | str s => simp [toNumQ] at hfc
          | arr l => simp [toNumQ] at hfc
          | obj o => simp [toNumQ] at hfc
  | null =>
      simp only [fieldContrib] at hfc
      injection hfc with hpair
      injection hpair with h1 h2
      subst h1
      subst h2
      norm_num
  | bool b =>
      simp only [fieldContrib] at hfc
      injection hfc with hpair
      injection hpair with h1 h2
      subst h1
      subst h2
      norm_num
  | num q =>
      simp only [fieldContrib] at hfc
      injection hfc with hpair
      injection hpair with h1 h2
      subst h1
      subst h2
      norm_num
  | str s =>
      simp only [fieldContrib] at hfc
      injection hfc with hpair
      injection hpair with h1 h2
      subst h1
      subst h2
      norm_num
  | arr l =>
      simp only [fieldContrib] at hfc
      injection hfc with hpair
      injection hpair with h1 h2
      subst h1
      subst h2
      norm_num

theorem countFieldsDict_bnd (fields : List (List Char × Json))
    (hb : fields.all (fun kv => confEntryOK kv.2) = true) :
    BndPair (countFieldsDict fields) := by
  induction fields with
  | nil =>
      intro n c h
      injection h with hpair
      injection hpair with h1 h2
      subst h1
      subst h2
      norm_num
  | cons kv rest ih =>
      rw [List.all_cons, Bool.and_eq_true] at hb
      obtain ⟨k0, v0⟩ := kv
      exact bnd_exAdd (fieldContrib_bnd hb.1) (ih hb.2)

theorem countDictSection_bnd (data : List (List Char × Json)) (sec : List Char)
    (h : dictSectionBounded data sec = true) : BndPair (countDictSection data sec) := by
  unfold dictSectionBounded at h
  unfold countDictSection
  cases halo : alookup sec data with
  | none =>
      intro n c hh
      injection hh with hpair
      injection hpair with h1 h2
      subst h1
      subst h2
      norm_num
  | some v =>
      rw [halo] at h
      cases v with
      | obj fields => exact countFieldsDict_bnd fields h
      | null => intro n c hh; exact Except.noConfusion hh
      | bool b => intro n c hh; exact Except.noConfusion hh
      | num q => intro n c hh; exact Except.noConfusion hh
      | str s => intro n c hh; exact Except.noConfusion hh
      | arr l => intro n c hh; exact Except.noConfusion hh

theorem countListSection_empty (data : List (List Char × Json)) (sec : List Char)
    (h : listSectionEmpty data sec = true) : countListSection data sec = Except.ok (0, 0) := by
  unfold listSectionEmpty at h
  unfold countListSection
  cases halo : alookup sec data with
  | none => rfl
  | some v =>
      rw [halo] at h
      cases v with
      | arr l =>
          cases l with
          | nil => rfl
          | cons j rest => exact Bool.noConfusion h
      | null => exact Bool.noConfusion h
      | bool b => exact Bool.noConfusion h
      | num q => exact Bool.noConfusion h
      | str s => exact Bool.noConfusion h
      | obj o => exact Bool.noConfusion h

theorem bnd_of_eq_ok00 {r : Except (List Char) (ℕ × ℚ)} (h : r = Except.ok (0, 0)) :
    BndPair r := by
  intro n c hh
  rw [h] at hh
  injection hh with hpair
  injection hpair with h1 h2
  subst h1
  subst h2
  norm_num

theorem rhE_bounds {y : ℚ} (h0 : 0 ≤ y) (h1 : y ≤ 1000) : 0 ≤ rhE y ∧ rhE y ≤ 1000 := by
  have hf0 : (0 : ℤ) ≤ ⌊y⌋ := Int.floor_nonneg.mpr h0
  have hfle : (⌊y⌋ : ℚ) ≤ y := Int.floor_le y
  have hf1000 : ⌊y⌋ ≤ 1000 := by
    have h := Int.floor_le_floor h1
    simpa using h
  unfold rhE
  split_ifs with hr1 hr2 hpar
  · exact ⟨hf0, hf1000⟩
  · refine ⟨by omega, ?_⟩
    have ha : (⌊y⌋ : ℚ) < 1000 := by linarith
    have hb : ⌊y⌋ < 1000 := by exact_mod_cast ha
    omega
  · exact ⟨hf0, hf1000⟩
  · refine ⟨by omega, ?_⟩
    have hr : 1 / 2 ≤ y - (⌊y⌋ : ℚ) := le_of_not_lt hr1
    have ha : (⌊y⌋ : ℚ) < 1000 := by linarith
    have hb : ⌊y⌋ < 1000 := by exact_mod_cast ha
    omega

theorem pyRound1_bounds {x : ℚ} (h0 : 0 ≤ x) (h1 : x ≤ 100) :
    0 ≤ pyRound1 x ∧ pyRound1 x ≤ 100 := by
  have hy0 : (0 : ℚ) ≤ 10 * x := by linarith
  have hy1 : 10 * x ≤ 1000 := by linarith
  obtain ⟨ha, hb⟩ := rhE_bounds hy0 hy1
  have ha2 : (0 : ℚ) ≤ (rhE (10 * x) : ℚ) := by exact_mod_cast ha
  have hb2 : ((rhE (10 * x) : ℚ)) ≤ 1000 := by exact_mod_cast hb
  unfold pyRound1
  constructor
  · positivity
  · rw [div_le_iff₀ (by norm_num : (0 : ℚ) < 10)]
    linarith

/-- Decidable equality for `Except` outcomes over decidable components. -/
instance exceptDecEq {ε α : Type} [DecidableEq ε] [DecidableEq α] :
    DecidableEq (Except ε α) := fun x y =>
  match x, y with
  | .ok a, .ok b => decidable_of_iff (a = b) (by simp)
  | .error a, .error b => decidable_of_iff (a = b) (by simp)
  | .ok _, .error _ => isFalse (by simp)
  | .error _, .ok _ => isFalse (by simp)

/-! ## Claim theorems -/

/-- Claim C1 (corrected), counterexample: for the non-JSON completion
`"oops"`, `main.py`'s sanitization/parsing path does **not** return an empty
mapping — after the `max_retries` re-attempts it propagates the decode error
to its caller (`Except.error`), refuting "never raises … returns an empty
mapping". -/
theorem claim_C1_counterexample :
    (runChain (fun _ => Except.ok "oops".toList) mistralModel template1Str 3).1
        = Except.error jsonDecodeMsg ∧
    ¬((runChain (fun _ => Except.ok "oops".toList) mistralModel template1Str 3).1
        = Except.ok (Json.obj [])) := by
  constructor
  · rfl
  · intro h
    rw [show (runChain (fun _ => Except.ok "oops".toList) mistralModel template1Str 3).1
        = Except.error jsonDecodeMsg from rfl] at h
    exact Except.noConfusion h

/-- Claim C1 (amended): when strict parsing of the fence-stripped completion
fails, `main.py`'s `extract_with_mistral`/`extract_with_groq` path raises to
its caller after `max_retries + 1` parse attempts; it never returns an empty
mapping.  (`llm_service.py`'s `_parse_json_response` instead returns `None`
without raising; there is no further repair stage in the source.) -/
theorem claim_C1_amended (content name tid : List Char) (maxRetries : ℕ)
    (h : parseJson (sanitizeMain content) = none) :
    runChain (fun _ => Except.ok content) name tid maxRetries
      = (Except.error jsonDecodeMsg, maxRetries + 1) := by
  have hao : ∀ r, attemptOnce (fun _ => Except.ok content) name tid r = Sum.inr () := by
    intro r
    simp [attemptOnce, h]
  unfold runChain
  exact chainAux_parse_fail hao maxRetries 0

/-- Witness for C1: the amended theorem applied to the concrete completion
`"oops"` with the source's retry ceiling 3. -/
theorem claim_C1_witness :
    runChain (fun _ => Except.ok "oops".toList) groqModel template1Str 3
      = (Except.error jsonDecodeMsg, 4) :=
  claim_C1_amended "oops".toList groqModel template1Str 3 rfl

/-- Claim C2 (corrected), counterexample: with a provider stub that always
raises and the source's `max_retries = 3`, `_extract_with_mistral` makes
exactly 3 provider calls — not `max_retries + 1 = 4` — and returns `None`. -/
theorem claim_C2_counterexample :
    extractSvcMistral (fun _ => Except.error "boom".toList) 3 = (none, 3) ∧
    ¬((extractSvcMistral (fun _ => Except.error "boom".toList) 3).2 = 3 + 1) := by
  constructor
  · rfl
  · intro h
    rw [show (extractSvcMistral (fun _ => Except.error "boom".toList) 3).2 = 3 from rfl] at h
    omega

/-- Claim C2 (amended): given a provider stub that always raises, a single
`_extract_with_mistral` call makes exactly `max_retries` provider calls
(`for attempt in range(max_retries)`), then yields `None` — an empty result —
rather than raising. -/
theorem claim_C2_amended (provider : ℕ → Except (List Char) (List Char)) (maxRetries : ℕ)
    (h : ∀ n c, provider n ≠ Except.ok c) :
    extractSvcMistral provider maxRetries = (none, maxRetries) := by
  unfold extractSvcMistral
  rw [svcLoop_all_fail h maxRetries 0 0, Nat.zero_add]

/-- Witness for C2: the amended theorem at a concrete always-raising stub
with the source's ceiling 3. -/
theorem claim_C2_witness :
    extractSvcMistral (fun _ => Except.error "down".toList) 3 = (none, 3) :=
  claim_C2_amended (fun _ => Except.error "down".toList) 3
    (fun _ _ hc => Except.noConfusion hc)

/-- The Python-literal-style completion `{'a': None, 'b': True,}`. -/
def cPyLit : List Char :=
  [lbrace, sqc] ++ "a".toList ++ [sqc, ':', ' '] ++ "None".toList ++ [',', ' ', sqc]
    ++ "b".toList ++ [sqc, ':', ' '] ++ "True".toList ++ [',', rbrace]

/-- The structured value `{"a": null, "b": true}` the spec expects. -/
def cPyExpected : Json := Json.obj [("a".toList, Json.null), ("b".toList, Json.bool true)]

/-- Claim C6 (corrected), counterexample: sanitizing the Python-literal-style
completion `{'a': None, 'b': True,}` does **not** yield
`{"a": null, "b": true}` — `_parse_json_response` performs no literal
normalization, quote conversion or trailing-comma stripping, so the strict
parse fails and `None` is returned. -/
theorem claim_C6_counterexample : parseJsonResponseModel cPyLit ≠ some cPyExpected := by
  intro h
  rw [show parseJsonResponseModel cPyLit = none from rfl] at h
  exact Option.noConfusion h

/-- Claim C6 (amended): the code only strips markdown fences before a strict
parse, so the Python-literal-style completion fails to parse:
`_parse_json_response` returns `None`, and `main.py`'s chain propagates a
decode error after its retries. -/
theorem claim_C6_amended :
    parseJsonResponseModel cPyLit = none ∧
    (runChain (fun _ => Except.ok cPyLit) mistralModel template1Str 3).1
      = Except.error jsonDecodeMsg :=
  ⟨rfl, rfl⟩

/-- A completion wrapped in six backticks, then `json X`. -/
def cFenced : List Char := [bq, bq, bq, bq, bq, bq] ++ "json".toList ++ [' ', 'X']

/-- Claim C9 (corrected), counterexample: the fence-stripping of `main.py` is
not idempotent.  On ``` ``````json X ``` the first pass removes only the
leading ``` ``` ``` (leaving ``` ```json X ```), and the second pass removes
```` ```json ````, so `sanitize(sanitize(s)) ≠ sanitize(s)`. -/
theorem claim_C9_counterexample :
    sanitizeMain (sanitizeMain cFenced) ≠ sanitizeMain cFenced := by
  decide

/-- Claim C9 (amended): the fence-stripping pipeline is idempotent on every
completion whose stripped text neither starts nor ends with a triple-backtick
fence (it then equals plain stripping); in general idempotence fails. -/
theorem claim_C9_amended (s : List Char)
    (hp : hasPref fence (strip s) = false) (hs : hasSuf fence (strip s) = false) :
    sanitizeMain (sanitizeMain s) = sanitizeMain s := by
  have h1 : sanitizeMain s = strip s := sanitizeMain_nofence hp hs
  rw [h1]
  have hp2 : hasPref fence (strip (strip s)) = false := by rw [strip_strip]; exact hp
  have hs2 : hasSuf fence (strip (strip s)) = false := by rw [strip_strip]; exact hs
  rw [sanitizeMain_nofence hp2 hs2, strip_strip]

/-- Witness for C9: the amended idempotence at the fence-free completion
`"hello"`. -/
theorem claim_C9_witness :
    sanitizeMain (sanitizeMain "hello".toList) = sanitizeMain "hello".toList :=
  claim_C9_amended "hello".toList (by decide) (by decide)

/-- Claim C3 (confirmed): if the primary (Mistral) chat stub always raises
and the secondary (Groq) stub returns a fixed completion that parses to an
object, `LLMService.extract` returns that payload (every key other than the
two metadata keys `_llm_model`/`_template` is preserved verbatim), and the
primary is attempted before the secondary (trace `[mistral, groq]`). -/
theorem claim_C3 (mStub gStub : ℕ → Except (List Char) (List Char))
    (tid gs : List Char) (kvs : List (List Char × Json))
    (hm : ∀ n c, mStub n ≠ Except.ok c)
    (hg : ∀ n, gStub n = Except.ok gs)
    (hp : parseJson (sanitizeMain gs) = some (Json.obj kvs)) :
    isOkObj (extractMain true true mStub gStub tid).1 = true ∧
    (∀ k, k ≠ llmKey → k ≠ tmplKey →
      okObjLookup (extractMain true true mStub gStub tid).1 k = alookup k kvs) ∧
    (extractMain true true mStub gStub tid).2 = [Prov.mistral, Prov.groq] := by
  have hm0 : ∃ e, mStub 0 = Except.error e := by
    cases h0 : mStub 0 with
    | ok c => exact absurd h0 (hm 0 c)
    | error e => exact ⟨e, rfl⟩
  obtain ⟨e, he⟩ := hm0
  have hchainM : runChain mStub mistralModel tid 3 = (Except.error e, 1) := by
    rw [runChain, chainAux]
    simp [attemptOnce, he]
  have hchainG : runChain gStub groqModel tid 3
      = (Except.ok (Json.obj (setMeta kvs groqModel tid)), 1) := by
    rw [runChain, chainAux]
    simp [attemptOnce, hg 0, hp]
  have hmain : extractMain true true mStub gStub tid
      = (Except.ok (Json.obj (setMeta kvs groqModel tid)), [Prov.mistral, Prov.groq]) := by
    simp only [extractMain, extractGroqStage, hchainM, hchainG, if_true]
    rfl
  rw [hmain]
  refine ⟨rfl, ?_, rfl⟩
  intro k hk1 hk2
  show alookup k (setMeta kvs groqModel tid) = alookup k kvs
  unfold setMeta
  rw [alookup_setKey_other _ _ hk2, alookup_setKey_other _ _ hk1]

/-- The fixed Groq payload completion used in the C3 witness. -/
def cGs : List Char := [lbrace, dq] ++ "a".toList ++ [dq, ':', '1', rbrace]

/-- Witness for C3: primary always raising, secondary returning
`{"a": 1}`; the payload key `a` survives and the call order is
primary-then-secondary. -/
theorem claim_C3_witness :
    isOkObj (extractMain true true (fun _ => Except.error "boom".toList)
      (fun _ => Except.ok cGs) template1Str).1 = true ∧
    okObjLookup (extractMain true true (fun _ => Except.error "boom".toList)
      (fun _ => Except.ok cGs) template1Str).1 "a".toList = some (Json.num 1) ∧
    (extractMain true true (fun _ => Except.error "boom".toList)
      (fun _ => Except.ok cGs) template1Str).2 = [Prov.mistral, Prov.groq] := by
  have h := claim_C3 (fun _ => Except.error "boom".toList) (fun _ => Except.ok cGs)
    template1Str cGs [("a".toList, Json.num 1)]
    (fun _ _ hc => Except.noConfusion hc) (fun _ => rfl) rfl
  refine ⟨h.1, ?_, h.2.2⟩
  rw [h.2.1 "a".toList (by decide) (by decide)]
  rfl

/-- The extracted data of the C4 counterexample: the model returned only a
`portfolio_summary` section. -/
def cData0 : List (List Char × Json) := [(psKey, Json.obj [])]

/-- Claim C4 (corrected), counterexample: `process_file` does not backfill
missing template sections — for a model output containing only
`portfolio_summary`, the returned data lacks the declared
`schedule_of_investments` key entirely (only a `metadata` key is added). -/
theorem claim_C4_counterexample :
    soiKey ∈ template1SectionKeys ∧
    processFileSuccess cData0
      = Except.ok (cData0 ++ [(mdKey, Json.obj (mdSet [] 0 0))]) ∧
    alookup soiKey (cData0 ++ [(mdKey, Json.obj (mdSet [] 0 0))]) = none := by
  refine ⟨by decide, rfl, rfl⟩

/-- Claim C4 (amended): the section-completeness guarantee the source does
provide lives in `llm_service.py`'s `_validate_and_clean`: after it runs,
every field declared in the template schema is present in the data — but a
missing field is filled with `null`, not an empty mapping or list, and
`main.py`'s `process_file` performs no such backfill at all. -/
theorem claim_C4_amended (data schema : List (List Char × Json)) (k : List Char)
    (h : k ∈ schema.map Prod.fst) :
    (alookup k (validateAndClean data schema)).isSome := by
  induction schema generalizing data with
  | nil => exact absurd h (by simp)
  | cons fv rest ih =>
      obtain ⟨field, v⟩ := fv
      simp only [validateAndClean]
      rw [List.map_cons, List.mem_cons] at h
      rcases h with h | h
      · subst h
        by_cases hf : (alookup k data).isSome
        · rw [if_pos hf]
          exact validateAndClean_mono rest data hf
        · rw [if_neg hf]
          exact validateAndClean_mono rest _ (alookup_append_singleton_self data k Json.null)
      · by_cases hf : (alookup field data).isSome
        · rw [if_pos hf]
          exact ih _ h
        · rw [if_neg hf]
          exact ih _ h

/-- Witness for C4: `_validate_and_clean` of empty data against a schema
declaring `portfolio_summary` yields data containing that key. -/
theorem claim_C4_witness :
    (alookup psKey (validateAndClean [] [(psKey, Json.null)])).isSome :=
  claim_C4_amended [] [(psKey, Json.null)] psKey (by decide)

/-- The C5 counterexample data: one `portfolio_summary` field whose model-
reported confidence is 150. -/
def cData5 : List (List Char × Json) :=
  [(psKey, Json.obj [("f".toList,
    Json.obj [(valueKey, Json.str "x".toList), (confKey, Json.num 150)])])]

/-- Claim C5 (corrected), counterexample: the coverage/average-confidence
metric is an average of unvalidated model-reported confidences; for a
report of 150 the computed average is 150, violating `coverage ≤ 100`. -/
theorem claim_C5_counterexample :
    statsTemplate1 cData5 = Except.ok (1, 150) ∧ ¬(avgConf 1 150 ≤ 100) := by
  constructor
  · with_unfolding_all rfl
  · unfold avgConf pyRound1 rhE
    norm_num

/-- Claim C5 (amended): when the three list-valued sections are absent or
empty and every reported confidence lies in `[0, 100]`, the computed average
confidence lies in `[0, 100]`.  (In general the metric is unbounded, and it
does not characterize filled-versus-sentinel leaves.) -/
theorem claim_C5_amended (data : List (List Char × Json)) (tf : ℕ) (tc : ℚ)
    (hok : statsTemplate1 data = Except.ok (tf, tc))
    (h1 : dictSectionBounded data psKey = true)
    (h2 : dictSectionBounded data sooKey = true)
    (h3 : dictSectionBounded data scfKey = true)
    (h4 : dictSectionBounded data pcapKey = true)
    (h5 : listSectionEmpty data soiKey = true)
    (h6 : listSectionEmpty data pcpKey = true)
    (h7 : listSectionEmpty data pcfKey = true) :
    0 ≤ avgConf tf tc ∧ avgConf tf tc ≤ 100 := by
  have hbnd : BndPair (statsTemplate1 data) := by
    unfold statsTemplate1
    exact bnd_exAdd (bnd_exAdd (bnd_exAdd (bnd_exAdd (bnd_exAdd (bnd_exAdd
      (countDictSection_bnd data psKey h1)
      (countDictSection_bnd data sooKey h2))
      (countDictSection_bnd data scfKey h3))
      (countDictSection_bnd data pcapKey h4))
      (bnd_of_eq_ok00 (countListSection_empty data soiKey h5)))
      (bnd_of_eq_ok00 (countListSection_empty data pcpKey h6)))
      (bnd_of_eq_ok00 (countListSection_empty data pcfKey h7))
  obtain ⟨hc0, hc1⟩ := hbnd tf tc hok
  unfold avgConf
  by_cases htf : tf = 0
  · rw [if_pos htf]
    norm_num
  · rw [if_neg htf]
    have htfpos : (0 : ℚ) < (tf : ℚ) := by
      have : 0 < tf := Nat.pos_of_ne_zero htf
      exact_mod_cast this
    have hx0 : 0 ≤ tc / (tf : ℚ) := div_nonneg hc0 (le_of_lt htfpos)
    have hx1 : tc / (tf : ℚ) ≤ 100 := by
      rw [div_le_iff₀ htfpos]
      linarith
    exact pyRound1_bounds hx0 hx1

/-- The C5 witness data: one field with confidence 95 and no list sections. -/
def cData5W : List (List Char × Json) :=
  [(psKey, Json.obj [("f".toList,
    Json.obj [(valueKey, Json.str "x".toList), (confKey, Json.num 95)])])]

/-- Witness for C5: the amended bound applied to concrete data with one
confidence-95 field. -/
theorem claim_C5_witness : 0 ≤ avgConf 1 95 ∧ avgConf 1 95 ≤ 100 :=
  claim_C5_amended cData5W 1 95 (by with_unfolding_all rfl)
    (by with_unfolding_all decide) (by with_unfolding_all decide)
    (by with_unfolding_all decide) (by with_unfolding_all decide)
    (by decide) (by decide) (by decide)

/-- Claim C7 (confirmed): when `_merge_fund_data` merges one file's
extracted dict into the accumulated merge and succeeds, a key already
present is never overwritten by a scalar or mapping value (first writer
wins), and an incoming list value is appended to the existing list. -/
theorem claim_C7 (merged extracted m2 : List (List Char × Json)) (k : List Char)
    (hnd : (extracted.map Prod.fst).Nodup)
    (hok : mergeItems merged extracted = Except.ok m2) :
    (∀ v w, alookup k merged = some v → alookup k extracted = some w →
      (∀ l2, w ≠ Json.arr l2) → alookup k m2 = some v) ∧
    (∀ l1 l2, alookup k merged = some (Json.arr l1) →
      alookup k extracted = some (Json.arr l2) →
      alookup k m2 = some (Json.arr (l1 ++ l2))) := by
  constructor
  · intro v w hv hw hnl
    exact mergeItems_no_overwrite extracted merged m2 hnd hok hv hw hnl
  · intro l1 l2 hv hw
    exact mergeItems_list_append extracted merged m2 hnd hok hv hw

/-- Witness for C7: merging `{ps: [1]}` with an incoming `{ps: [2]}`
appends, yielding `{ps: [1, 2]}`. -/
theorem claim_C7_witness :
    alookup psKey [(psKey, Json.arr [Json.num 1, Json.num 2])]
      = some (Json.arr [Json.num 1, Json.num 2]) := by
  have h := claim_C7 [(psKey, Json.arr [Json.num 1])] [(psKey, Json.arr [Json.num 2])]
    [(psKey, Json.arr [Json.num 1, Json.num 2])] psKey (by decide) rfl
  exact h.2 [Json.num 1] [Json.num 2] rfl rfl

/-- Every `process_file` outcome is explicit: a `success` entry with no
error, or an `error` entry carrying a message. -/
theorem processFile_status (d : DocStub) :
    ((processFile d).status = successStr ∧ (processFile d).error = none) ∨
    ((processFile d).status = errorStr ∧ (processFile d).error.isSome) := by
  simp only [processFile]
  by_cases hs : (extractPdfText d.pdf).success = false
  · rw [if_pos hs]
    right
    exact ⟨rfl, rfl⟩
  · rw [if_neg hs]
    split
    · right
      exact ⟨rfl, rfl⟩
    · split
      · right
        exact ⟨rfl, rfl⟩
      · left
        exact ⟨rfl, rfl⟩

/-- Claim C8 (confirmed): the endpoint's result list has exactly one entry
per submitted document, every entry carries an explicit `success`/`error`
status (errors with a reason), each entry depends only on its own document
(one failure cannot abort or alter siblings), and the multiset of entries is
invariant under submission order. -/
theorem claim_C8 (docs : List DocStub) :
    (extractEndpointResults docs).length = docs.length ∧
    (∀ r ∈ extractEndpointResults docs,
      (r.status = successStr ∨ r.status = errorStr) ∧
      (r.status = errorStr → r.error.isSome)) ∧
    (∀ pre d post,
      extractEndpointResults (pre ++ d :: post)
        = extractEndpointResults pre ++ processFile d :: extractEndpointResults post) ∧
    (∀ docs2, docs.Perm docs2 →
      (extractEndpointResults docs).Perm (extractEndpointResults docs2)) := by
  refine ⟨by simp [extractEndpointResults], ?_, ?_, ?_⟩
  · intro r hr
    rw [extractEndpointResults, List.mem_map] at hr
    obtain ⟨d, _, hd⟩ := hr
    subst hd
    rcases processFile_status d with ⟨h1, _⟩ | ⟨h1, h2⟩
    · refine ⟨Or.inl h1, fun hc => ?_⟩
      rw [h1] at hc
      exact absurd hc (by decide)
    · exact ⟨Or.inr h1, fun _ => h2⟩
  · intro pre d post
    simp [extractEndpointResults]
  · intro docs2 hperm
    exact hperm.map processFile

/-- A document whose PDF text extracts fine and whose LLM call succeeds. -/
def cGoodDoc : DocStub :=
  ⟨"good.pdf".toList, ⟨Except.ok [List.replicate 200 'a'], Except.ok []⟩,
    Except.ok [(psKey, Json.obj [])]⟩

/-- A corrupt document: the PDF library raises on open. -/
def cBadDoc : DocStub :=
  ⟨"bad.pdf".toList, ⟨Except.error "corrupt file".toList, Except.ok []⟩,
    Except.error "unreached".toList⟩

/-- Witness for C8: two documents (one good, one corrupt), giving two
entries, and order-independence under swapping the submission order. -/
theorem claim_C8_witness :
    (extractEndpointResults [cGoodDoc, cBadDoc]).length
      = ([cGoodDoc, cBadDoc] : List DocStub).length ∧
    (extractEndpointResults [cGoodDoc, cBadDoc]).Perm
      (extractEndpointResults [cBadDoc, cGoodDoc]) :=
  ⟨(claim_C8 [cGoodDoc, cBadDoc]).1,
    (claim_C8 [cGoodDoc, cBadDoc]).2.2.2 [cBadDoc, cGoodDoc]
      (List.Perm.swap cBadDoc cGoodDoc [])⟩

/-- A PDF whose single page yields no text from either library. -/
def cEmptyPdf : PdfStub := ⟨Except.ok [[]], Except.ok []⟩

/-- Claim C10 (corrected), counterexample: for a PDF whose page text is
empty under both libraries, `extract_pdf_text` returns `success = True` with
empty text — so success is **not** equivalent to the stripped text being
non-empty. -/
theorem claim_C10_counterexample :
    ¬(((extractPdfText cEmptyPdf).success = true) ↔ (extractPdfText cEmptyPdf).text ≠ []) := by
  decide

/-- Claim C10 (amended): `extract_pdf_text` is total and its outcome is a
strict dichotomy: on the non-raising path it returns `success = True`
(whatever the text) with method `pdfplumber` or `PyPDF2`; on any internal
exception it returns the fixed failure record — `success = False`, empty
text, `page_count = 0`, method `"failed"`, with an error message. -/
theorem claim_C10_amended (stub : PdfStub) :
    ((extractPdfText stub).success = true ∧ (extractPdfText stub).errMsg = none ∧
      ((extractPdfText stub).method = "pdfplumber".toList ∨
        (extractPdfText stub).method = "PyPDF2".toList)) ∨
    ((extractPdfText stub).success = false ∧ (extractPdfText stub).text = [] ∧
      (extractPdfText stub).pageCount = 0 ∧
      (extractPdfText stub).method = "failed".toList ∧
      (extractPdfText stub).errMsg.isSome) := by
  simp only [extractPdfText]
  split
  · right
    exact ⟨rfl, rfl, rfl, rfl, rfl⟩
  · split
    · split
      · right
        exact ⟨rfl, rfl, rfl, rfl, rfl⟩
      · left
        exact ⟨rfl, rfl, Or.inr rfl⟩
    · left
      exact ⟨rfl, rfl, Or.inl rfl⟩

/-- Witness for C10: the dichotomy at the concrete empty-page stub. -/
theorem claim_C10_witness :
    ((extractPdfText cEmptyPdf).success = true ∧ (extractPdfText cEmptyPdf).errMsg = none ∧
      ((extractPdfText cEmptyPdf).method = "pdfplumber".toList ∨
        (extractPdfText cEmptyPdf).method = "PyPDF2".toList)) ∨
    ((extractPdfText cEmptyPdf).success = false ∧ (extractPdfText cEmptyPdf).text = [] ∧
      (extractPdfText cEmptyPdf).pageCount = 0 ∧
      (extractPdfText cEmptyPdf).method = "failed".toList ∧
      (extractPdfText cEmptyPdf).errMsg.isSome) :=
  claim_C10_amended cEmptyPdf
